import Mathlib

/-!
A shallow embedding of the contact repository and synchronization layer of the
`simple-contacts` application (an expo-sqlite backed contacts manager).

The embedding models:
* the JS string helpers used by the code (`trim`, whitespace stripping, case folding,
  substring search);
* the single `contacts` table as a list of rows plus the AUTOINCREMENT counter;
* the store bootstrapper (`bootstrap` = schema + `seedInitialContacts` +
  `ensureDefaultFavorite`, and the promise-memoizing `getDatabase`);
* the repository operations of the `useContacts` hook and of the page component
  (`loadContacts`, `addContact`, `updateContact`, `toggleFavorite`, `importFromApi`,
  `filteredContacts`, `handleSubmit`).

Asynchrony is erased: each operation is a pure state transformer, and `Date.now()`
values are passed in as explicit `now` arguments.  The memoized database promise is
modelled by its settled outcome (`Except` of an error message or a ready state).
-/

namespace SimpleContacts

/-! ## JS string primitives -/

/-- Characters removed by JS `String.prototype.trim` at either end. -/
def trimChars (cs : List Char) : List Char :=
  ((cs.dropWhile Char.isWhitespace).reverse.dropWhile Char.isWhitespace).reverse

/-- JS `s.trim()`: remove leading and trailing whitespace. -/
def jsTrim (s : String) : String := ⟨trimChars s.data⟩

/-- JS `String(x).replace(/\s+/g, "")`: remove every whitespace character. -/
def stripWS (s : String) : String := ⟨s.data.filter (fun c => !c.isWhitespace)⟩

/-- JS `x?.trim() || null` on an optional string: absent stays absent, and a value
that trims to the empty string becomes null.  Used by `addContact`/`updateContact`
for the optional `phone` and `email` fields. -/
def optTrimOrNull (o : Option String) : Option String :=
  match o with
  | none => none
  | some s => if jsTrim s = "" then none else some (jsTrim s)

/-- JS `x || ""` on an optional string: the value when present, the empty string
otherwise. -/
def orEmpty : Option String → String
  | none => ""
  | some s => s

/-- JS `hay.includes(pat)` on the underlying character lists. -/
def charsInclude (pat : List Char) : List Char → Bool
  | [] => pat.isEmpty
  | c :: rest => pat.isPrefixOf (c :: rest) || charsInclude pat rest

/-- JS `s.includes(q)`: substring containment. -/
def strIncludes (s q : String) : Bool := charsInclude q.data s.data

/-! ## Data model: the `contacts` table -/

/-- One row of the `contacts` table (see the `CREATE TABLE` statement in `db.ts`).
`favorite` is the 0/1 integer column; nullable columns are `Option`s. -/
structure Contact where
  id : Nat
  name : String
  phone : Option String
  email : Option String
  favorite : Nat
  created_at : Option Nat
deriving DecidableEq

/-- The persistent store: the table rows in insertion order together with the next
AUTOINCREMENT id. -/
structure DBState where
  rows : List Contact
  nextId : Nat
deriving DecidableEq

/-- A freshly created database: empty table, ids start at 1. -/
def emptyDB : DBState := { rows := [], nextId := 1 }

/-- `INSERT INTO contacts (name, phone, email, favorite, created_at) VALUES (…)`:
appends one row with the next AUTOINCREMENT id. -/
def insertContact (st : DBState) (name : String) (phone email : Option String)
    (favorite : Nat) (createdAt : Nat) : DBState :=
  { rows := st.rows ++
      [{ id := st.nextId, name := name, phone := phone, email := email,
         favorite := favorite, created_at := some createdAt }],
    nextId := st.nextId + 1 }

/-! ## Store bootstrapper (the `db` module) -/

/-- The fixed sample rows of `seedInitialContacts` (name, phone, favorite). -/
def sampleSeeds : List (String × String × Nat) :=
  [("Alice Nguyen", "0901234567", 1),
   ("Bao Tran", "0987654321", 0),
   ("Cuong Le", "0912345678", 0)]

/-- `seedInitialContacts`: if the table is non-empty do nothing, otherwise insert the
three samples with `email = null` and `created_at = now + index`. -/
def seedInitialContacts (st : DBState) (now : Nat) : DBState :=
  if 0 < st.rows.length then st
  else
    sampleSeeds.enum.foldl
      (fun acc e => insertContact acc e.2.1 (some e.2.2.1) none e.2.2.2 (now + e.1)) st

/-- `SELECT id FROM contacts WHERE favorite = 1 LIMIT 1`. -/
def firstFavoriteRow (rows : List Contact) : Option Contact :=
  rows.find? (fun r => r.favorite == 1)

/-- `SELECT id FROM contacts ORDER BY id ASC LIMIT 1`: the row of lowest id. -/
def lowestIdRow : List Contact → Option Contact
  | [] => none
  | r :: rs => some (rs.foldl (fun best x => if x.id < best.id then x else best) r)

/-- `ensureDefaultFavorite`: if some row already has `favorite = 1` do nothing; else,
if the table is non-empty, set `favorite = 1` on the row with the lowest id. -/
def ensureDefaultFavorite (st : DBState) : DBState :=
  match firstFavoriteRow st.rows with
  | some _ => st
  | none =>
    match lowestIdRow st.rows with
    | none => st
    | some fc =>
      { st with rows := st.rows.map (fun r =>
                  if r.id = fc.id then { r with favorite := 1 } else r) }

/-- `bootstrap`: open the database, ensure the schema (create-if-absent, a no-op on the
state model), seed, and ensure a default favorite. -/
def bootstrapDB (st : DBState) (now : Nat) : DBState :=
  ensureDefaultFavorite (seedInitialContacts st now)

/-- One call to `getDatabase`, with the module-level `databasePromise` modelled by the
settled outcome of the memoized promise.  `bootstrapResult` is the outcome a fresh
`bootstrap()` run would produce if it were started by this call; it is used only when
no promise is cached.  Returns the new cache and the result handed to the caller. -/
def getDatabaseStep (cache : Option (Except String DBState))
    (bootstrapResult : Except String DBState) :
    Option (Except String DBState) × Except String DBState :=
  match cache with
  | some r => (some r, r)
  | none => (some bootstrapResult, bootstrapResult)

/-! ## Repository operations (the `useContacts` hook and the page component) -/

/-- The `data` argument of `addContact`/`updateContact`. -/
structure ContactInput where
  name : String
  phone : Option String
  email : Option String

/-- `addContact`: trim the name, apply `trim-or-null` to phone and email, insert with
`favorite = 0` and `created_at = Date.now()`. -/
def addContact (st : DBState) (data : ContactInput) (now : Nat) : DBState :=
  insertContact st (jsTrim data.name) (optTrimOrNull data.phone) (optTrimOrNull data.email)
    0 now

/-- `updateContact`: `UPDATE contacts SET name = ?, phone = ?, email = ? WHERE id = ?`
with the same trimming and empty-to-null rules as `addContact`. -/
def updateContact (st : DBState) (i : Nat) (data : ContactInput) : DBState :=
  { st with rows := st.rows.map (fun r =>
              if r.id = i then
                { r with name := jsTrim data.name, phone := optTrimOrNull data.phone,
                         email := optTrimOrNull data.email }
              else r) }

/-- JS `contact.favorite ? 0 : 1`: the value written by `toggleFavorite`. -/
def jsToggle (n : Nat) : Nat := if n ≠ 0 then 0 else 1

/-- `toggleFavorite(contact)`: `UPDATE contacts SET favorite = ? WHERE id = ?`, writing
the negation of the favorite value the caller supplied. -/
def toggleFavorite (st : DBState) (c : Contact) : DBState :=
  { st with rows := st.rows.map (fun r =>
              if r.id = c.id then { r with favorite := jsToggle c.favorite } else r) }

/-- The comparison of `ORDER BY favorite DESC, name COLLATE NOCASE ASC`: higher
favorite first, ties broken by the ASCII-lowercased name ascending. -/
def rowLe (a b : Contact) : Bool :=
  decide (b.favorite < a.favorite) ||
    (a.favorite == b.favorite && decide (a.name.toLower ≤ b.name.toLower))

/-- `loadContacts` / `list()`: `SELECT … FROM contacts ORDER BY favorite DESC,
name COLLATE NOCASE ASC`, modelled as a merge sort of the rows under `rowLe`. -/
def listContacts (st : DBState) : List Contact :=
  st.rows.mergeSort rowLe

/-- A loosely-typed record of the remote JSON array; each field may be absent. -/
structure RemoteRecord where
  name : Option String
  phone : Option String
  email : Option String

/-- The `{name, phone, email}` shape produced by the import mapping. -/
structure MappedRecord where
  name : String
  phone : Option String
  email : Option String

/-- JS falsiness of an optional string field: absent or the empty string. -/
def jsFalsy (o : Option String) : Bool :=
  match o with
  | none => true
  | some s => s == ""

/-- The per-record import mapping: `name: u.name || "(No name)"`,
`phone: u.phone ? String(u.phone).replace(/\s+/g, "") : null`,
`email: u.email || null`. -/
def mapRemote (u : RemoteRecord) : MappedRecord :=
  { name := if jsFalsy u.name then "(No name)" else orEmpty u.name,
    phone := if jsFalsy u.phone then none else some (stripWS (orEmpty u.phone)),
    email := if jsFalsy u.email then none else u.email }

/-- The working set of existing phones: `SELECT phone FROM contacts WHERE phone IS NOT
NULL`, then `r.phone ? r.phone.trim() : ""` and keep only non-empty results. -/
def existingPhonesOf (rows : List Contact) : List String :=
  ((rows.filterMap (fun r => r.phone)).map (fun p => if p = "" then "" else jsTrim p)).filter
    (fun p => 0 < p.length)

/-- The insert loop of `importFromApi`: skip a record when its phone is null or empty or
its trimmed phone is already in the working set; otherwise insert it with `favorite = 0`
and add the trimmed phone to the set, counting the insert. -/
def importLoop (now : Nat) : List MappedRecord → List String → DBState → Nat → DBState × Nat
  | [], _, st, n => (st, n)
  | item :: rest, phones, st, n =>
    match item.phone with
    | none => importLoop now rest phones st n
    | some p =>
      if p = "" then importLoop now rest phones st n
      else if jsTrim p ∈ phones then importLoop now rest phones st n
      else importLoop now rest (jsTrim p :: phones)
        (insertContact st item.name (some (jsTrim p)) item.email 0 now) (n + 1)

/-- `importFromApi` after the fetch: map the remote records, read the working set of
existing phones, run the insert loop, and return the final state with the number of
rows actually inserted (the value stored into `importedCount`). -/
def importFromApi (data : List RemoteRecord) (st : DBState) (now : Nat) : DBState × Nat :=
  importLoop now (data.map mapRemote) (existingPhonesOf st.rows) st 0

/-- `filteredContacts`: the visible subset of the loaded snapshot for a search string
and a favorites-only flag. -/
def filteredContacts (contacts : List Contact) (search : String) (favoritesOnly : Bool) :
    List Contact :=
  contacts.filter (fun c =>
    if favoritesOnly && c.favorite == 0 then false
    else if (jsTrim search).toLower = "" then true
    else strIncludes c.name.toLower ((jsTrim search).toLower) ||
      strIncludes ((orEmpty c.phone).toLower) ((jsTrim search).toLower))

/-- The modal form state of the page component. -/
structure FormState where
  name : String
  phone : String
  email : String

/-- `handleSubmit` of the page component: validate the trimmed name and email, and only
then either update the edited contact or insert a new one.  The boolean reports whether
a write was performed. -/
def handleSubmit (st : DBState) (editing : Option Contact) (form : FormState) (now : Nat) :
    DBState × Bool :=
  if jsTrim form.name = "" ∨
      (jsTrim form.email ≠ "" ∧ strIncludes (jsTrim form.email) ("@") = false) then
    (st, false)
  else
    match editing with
    | some c =>
      ({ st with rows := st.rows.map (fun r =>
                   if r.id = c.id then
                     { r with
                       name := jsTrim form.name,
                       phone := if jsTrim form.phone = "" then none
                                else some (jsTrim form.phone),
                       email := if jsTrim form.email = "" then none
                                else some (jsTrim form.email) }
                   else r) }, true)
    | none =>
      (insertContact st (jsTrim form.name)
        (if jsTrim form.phone = "" then none else some (jsTrim form.phone))
        (if jsTrim form.email = "" then none else some (jsTrim form.email)) 0 now, true)

/-! ## Concrete sample data used by witnesses and counterexamples -/

/-- A sample stored row. -/
def c0 : Contact :=
  { id := 1, name := "A", phone := some "0900", email := none, favorite := 0,
    created_at := some 0 }

/-- A one-row table holding `c0`. -/
def oneRowDB : DBState := { rows := [c0], nextId := 2 }

/-- The re-import scenario source: two records sharing phone `"1 2 3"`. -/
def d0 : List RemoteRecord :=
  [{ name := some "A", phone := some "1 2 3", email := none },
   { name := some "B", phone := some "1 2 3", email := none }]

/-! ## Lemmas about the string primitives -/

theorem trimChars_eq_dropWhile (cs : List Char) :
    trimChars cs = (cs.dropWhile Char.isWhitespace).rdropWhile Char.isWhitespace := rfl

theorem dropWhile_prefix_self {α : Type} {p : α → Bool} {m t A : List α}
    (hA : A.dropWhile p = A) (ht : m ++ t = A) : m.dropWhile p = m := by
  cases m with
  | nil => rfl
  | cons x xs =>
    have hx : p x = false := by
      by_contra hpx
      have hpx' : p x = true := by simpa using hpx
      subst ht
      rw [List.cons_append, List.dropWhile_cons_of_pos hpx'] at hA
      have hle : ((xs ++ t).dropWhile p).length ≤ (xs ++ t).length :=
        List.Sublist.length_le (List.dropWhile_sublist p)
      have hlen := congrArg List.length hA
      simp only [List.length_cons] at hlen
      omega
    exact List.dropWhile_cons_of_neg (by simp [hx])

theorem trimChars_idem (cs : List Char) : trimChars (trimChars cs) = trimChars cs := by
  rw [trimChars_eq_dropWhile, trimChars_eq_dropWhile]
  obtain ⟨t, ht⟩ := List.rdropWhile_prefix Char.isWhitespace (cs.dropWhile Char.isWhitespace)
  rw [dropWhile_prefix_self (List.dropWhile_idempotent Char.isWhitespace cs) ht,
    List.rdropWhile_idempotent]

theorem jsTrim_idem (s : String) : jsTrim (jsTrim s) = jsTrim s :=
  congrArg String.mk (trimChars_idem s.data)

theorem dropWhile_eq_self_of_all {α : Type} {p : α → Bool} {l : List α}
    (h : ∀ c ∈ l, p c = false) : l.dropWhile p = l := by
  cases l with
  | nil => rfl
  | cons x xs => exact List.dropWhile_cons_of_neg (by simp [h x (List.mem_cons_self x xs)])

theorem trimChars_eq_self_of_all {cs : List Char} (h : ∀ c ∈ cs, c.isWhitespace = false) :
    trimChars cs = cs := by
  rw [trimChars_eq_dropWhile, dropWhile_eq_self_of_all h]
  exact List.rdropWhile_eq_self_iff.mpr (fun hne => by simp [h _ (List.getLast_mem hne)])

theorem jsTrim_eq_self {s : String} (h : ∀ c ∈ s.data, c.isWhitespace = false) :
    jsTrim s = s :=
  congrArg String.mk (trimChars_eq_self_of_all h)

theorem stripWS_wsFree (s : String) : ∀ c ∈ (stripWS s).data, c.isWhitespace = false := by
  intro c hc
  have hmem : c ∈ s.data.filter (fun c => !c.isWhitespace) := hc
  have := (List.mem_filter.mp hmem).2
  simpa using this

theorem jsTrim_stripWS (s : String) : jsTrim (stripWS s) = stripWS s :=
  jsTrim_eq_self (stripWS_wsFree s)

theorem strLength_pos {s : String} (h : s ≠ "") : 0 < s.length := by
  cases s with
  | mk data =>
    cases data with
    | nil => exact absurd rfl h
    | cons c cs => simp [String.length]

/-! ## Lemmas about the working set of phones and the import loop -/

theorem existingPhonesOf_append (a b : List Contact) :
    existingPhonesOf (a ++ b) = existingPhonesOf a ++ existingPhonesOf b := by
  simp [existingPhonesOf]

theorem existingPhonesOf_insert (st : DBState) (nm : String) (q : String) (em : Option String)
    (fav : Nat) (ca : Nat) (hq : q ≠ "") (hqt : jsTrim q = q) :
    existingPhonesOf (insertContact st nm (some q) em fav ca).rows
      = existingPhonesOf st.rows ++ [q] := by
  unfold insertContact
  rw [existingPhonesOf_append]
  congr 1
  simp [existingPhonesOf, List.filter_cons, hq, hqt, strLength_pos hq]

theorem importLoop_spec (now : Nat) (items : List MappedRecord) :
    ∀ phones st n, ∃ new,
      (importLoop now items phones st n).1.rows = st.rows ++ new ∧
      (importLoop now items phones st n).2 = n + new.length ∧
      ((new.map (fun r => r.phone)).Nodup) ∧
      (∀ r ∈ new, ∃ i, i ∈ items ∧ ∃ p, i.phone = some p ∧ p ≠ "" ∧
        r.name = i.name ∧ r.phone = some (jsTrim p) ∧ r.favorite = 0 ∧ jsTrim p ∉ phones) := by
  induction items with
  | nil =>
    intro phones st n
    exact ⟨[], by simp [importLoop], by simp [importLoop], by simp, by simp⟩
  | cons item rest ih =>
    intro phones st n
    obtain ⟨nm, ph, em⟩ := item
    cases ph with
    | none =>
      have hred : importLoop now (⟨nm, none, em⟩ :: rest) phones st n
          = importLoop now rest phones st n := rfl
      rw [hred]
      obtain ⟨new, h1, h2, h3, h4⟩ := ih phones st n
      refine ⟨new, h1, h2, h3, fun r hr => ?_⟩
      obtain ⟨i, hi, hrest⟩ := h4 r hr
      exact ⟨i, List.mem_cons_of_mem _ hi, hrest⟩
    | some p =>
      have hred : importLoop now (⟨nm, some p, em⟩ :: rest) phones st n
          = if p = "" then importLoop now rest phones st n
            else if jsTrim p ∈ phones then importLoop now rest phones st n
            else importLoop now rest (jsTrim p :: phones)
              (insertContact st nm (some (jsTrim p)) em 0 now) (n + 1) := rfl
      rw [hred]
      by_cases hp : p = ""
      · rw [if_pos hp]
        obtain ⟨new, h1, h2, h3, h4⟩ := ih phones st n
        refine ⟨new, h1, h2, h3, fun r hr => ?_⟩
        obtain ⟨i, hi, hrest⟩ := h4 r hr
        exact ⟨i, List.mem_cons_of_mem _ hi, hrest⟩
      · rw [if_neg hp]
        by_cases hmem : jsTrim p ∈ phones
        · rw [if_pos hmem]
          obtain ⟨new, h1, h2, h3, h4⟩ := ih phones st n
          refine ⟨new, h1, h2, h3, fun r hr => ?_⟩
          obtain ⟨i, hi, hrest⟩ := h4 r hr
          exact ⟨i, List.mem_cons_of_mem _ hi, hrest⟩
        · rw [if_neg hmem]
          obtain ⟨new, h1, h2, h3, h4⟩ :=
            ih (jsTrim p :: phones) (insertContact st nm (some (jsTrim p)) em 0 now) (n + 1)
          refine ⟨{ id := st.nextId, name := nm, phone := some (jsTrim p), email := em,
                    favorite := 0, created_at := some now } :: new, ?_, ?_, ?_, ?_⟩
          · rw [h1]
            simp [insertContact]
          · rw [h2]
            simp [Nat.add_comm, Nat.add_assoc, Nat.add_left_comm]
          · rw [List.map_cons, List.nodup_cons]
            refine ⟨?_, h3⟩
            intro hcontra
            obtain ⟨r, hr, hrph⟩ := List.mem_map.mp hcontra
            obtain ⟨i, hi, p', hp', hp'ne, hname, hphone, hfav, hnotin⟩ := h4 r hr
            rw [hphone] at hrph
            have : jsTrim p' = jsTrim p := by simpa using hrph
            exact hnotin (this ▸ List.mem_cons_self _ _)
          · intro r hr
            rcases List.mem_cons.mp hr with hhead | htail
            · subst hhead
              exact ⟨⟨nm, some p, em⟩, List.mem_cons_self _ _, p, rfl, hp, rfl, rfl, rfl, hmem⟩
            · obtain ⟨i, hi, p', hp', hp'ne, hname, hphone, hfav, hnotin⟩ := h4 r htail
              refine ⟨i, List.mem_cons_of_mem _ hi, p', hp', hp'ne, hname, hphone, hfav, ?_⟩
              intro hin
              exact hnotin (List.mem_cons_of_mem _ hin)

theorem importLoop_skips (now : Nat) (items : List MappedRecord) :
    ∀ phones st n,
      (∀ i ∈ items, ∀ p, i.phone = some p → p = "" ∨ jsTrim p ∈ phones) →
      importLoop now items phones st n = (st, n) := by
  induction items with
  | nil => intro phones st n _; rfl
  | cons item rest ih =>
    intro phones st n h
    obtain ⟨nm, ph, em⟩ := item
    cases ph with
    | none =>
      have hred : importLoop now (⟨nm, none, em⟩ :: rest) phones st n
          = importLoop now rest phones st n := rfl
      rw [hred]
      exact ih phones st n (fun i hi => h i (List.mem_cons_of_mem _ hi))
    | some p =>
      have hred : importLoop now (⟨nm, some p, em⟩ :: rest) phones st n
          = if p = "" then importLoop now rest phones st n
            else if jsTrim p ∈ phones then importLoop now rest phones st n
            else importLoop now rest (jsTrim p :: phones)
              (insertContact st nm (some (jsTrim p)) em 0 now) (n + 1) := rfl
      rw [hred]
      have hcase := h ⟨nm, some p, em⟩ (List.mem_cons_self _ _) p rfl
      by_cases hp : p = ""
      · rw [if_pos hp]
        exact ih phones st n (fun i hi => h i (List.mem_cons_of_mem _ hi))
      · rw [if_neg hp, if_pos (hcase.resolve_left hp)]
        exact ih phones st n (fun i hi => h i (List.mem_cons_of_mem _ hi))

theorem importLoop_covers (now : Nat) (items : List MappedRecord) :
    ∀ phones st n,
      (∀ i ∈ items, ∀ p, i.phone = some p → ∀ c ∈ p.data, c.isWhitespace = false) →
      (∀ q ∈ phones, q ∈ existingPhonesOf st.rows) →
      (∀ i ∈ items, ∀ p, i.phone = some p → p ≠ "" →
        p ∈ existingPhonesOf (importLoop now items phones st n).1.rows) := by
  induction items with
  | nil =>
    intro phones st n _ _ i hi
    exact absurd hi (List.not_mem_nil i)
  | cons item rest ih =>
    intro phones st n hws hset i hi p hp hpne
    obtain ⟨nm, ph, em⟩ := item
    have hmono : ∀ q st' n' phones', q ∈ existingPhonesOf st'.rows →
        q ∈ existingPhonesOf (importLoop now rest phones' st' n').1.rows := by
      intro q st' n' phones' hq
      obtain ⟨new, h1, -, -, -⟩ := importLoop_spec now rest phones' st' n'
      rw [h1, existingPhonesOf_append]
      exact List.mem_append_left _ hq
    cases ph with
    | none =>
      have hred : importLoop now (⟨nm, none, em⟩ :: rest) phones st n
          = importLoop now rest phones st n := rfl
      rw [hred]
      rcases List.mem_cons.mp hi with hhead | htail
      · subst hhead
        exact absurd hp (by simp)
      · exact ih phones st n (fun j hj => hws j (List.mem_cons_of_mem _ hj)) hset i htail p hp
          hpne
    | some pp =>
      have hws' : ∀ c ∈ pp.data, c.isWhitespace = false :=
        hws ⟨nm, some pp, em⟩ (List.mem_cons_self _ _) pp rfl
      have hppt : jsTrim pp = pp := jsTrim_eq_self hws'
      have hred : importLoop now (⟨nm, some pp, em⟩ :: rest) phones st n
          = if pp = "" then importLoop now rest phones st n
            else if jsTrim pp ∈ phones then importLoop now rest phones st n
            else importLoop now rest (jsTrim pp :: phones)
              (insertContact st nm (some (jsTrim pp)) em 0 now) (n + 1) := rfl
      rw [hred]
      by_cases hpp : pp = ""
      · rw [if_pos hpp]
        rcases List.mem_cons.mp hi with hhead | htail
        · subst hhead
          have hppeq : pp = p := by simpa using hp
          subst hppeq
          exact absurd hpp hpne
        · exact ih phones st n (fun j hj => hws j (List.mem_cons_of_mem _ hj)) hset i htail p
            hp hpne
      · rw [if_neg hpp]
        by_cases hmem : jsTrim pp ∈ phones
        · rw [if_pos hmem]
          rcases List.mem_cons.mp hi with hhead | htail
          · subst hhead
            have hppeq : pp = p := by simpa using hp
            subst hppeq
            exact hmono pp st n phones (hset _ (hppt ▸ hmem))
          · exact ih phones st n (fun j hj => hws j (List.mem_cons_of_mem _ hj)) hset i htail p
              hp hpne
        · rw [if_neg hmem]
          have hins : existingPhonesOf
              (insertContact st nm (some (jsTrim pp)) em 0 now).rows
              = existingPhonesOf st.rows ++ [pp] := by
            rw [hppt]
            exact existingPhonesOf_insert st nm pp em 0 now hpp hppt
          have hset' : ∀ q ∈ jsTrim pp :: phones,
              q ∈ existingPhonesOf (insertContact st nm (some (jsTrim pp)) em 0 now).rows := by
            intro q hq
            rw [hins]
            rcases List.mem_cons.mp hq with hqh | hqt
            · exact List.mem_append_right _ (by simp [hqh, hppt])
            · exact List.mem_append_left _ (hset q hqt)
          rcases List.mem_cons.mp hi with hhead | htail
          · subst hhead
            have hppeq : pp = p := by simpa using hp
            subst hppeq
            refine hmono pp _ (n + 1) (jsTrim pp :: phones) ?_
            rw [hins]
            exact List.mem_append_right _ (List.mem_cons_self _ _)
          · exact ih (jsTrim pp :: phones) (insertContact st nm (some (jsTrim pp)) em 0 now)
              (n + 1) (fun j hj => hws j (List.mem_cons_of_mem _ hj)) hset' i htail p hp hpne

/-! ## Lemmas about the import mapping -/

theorem mapRemote_name_ne (u : RemoteRecord) : (mapRemote u).name ≠ "" := by
  unfold mapRemote
  by_cases h : jsFalsy u.name = true
  · simp [h]
  · simp only [h]
    cases hn : u.name with
    | none => rw [hn] at h; exact absurd rfl h
    | some s =>
      rw [hn] at h
      simp only [jsFalsy, beq_iff_eq] at h
      simpa [orEmpty] using h

theorem mapRemote_phone_wsFree (u : RemoteRecord) :
    ∀ p, (mapRemote u).phone = some p → ∀ c ∈ p.data, c.isWhitespace = false := by
  intro p hp
  unfold mapRemote at hp
  by_cases h : jsFalsy u.phone = true
  · simp [h] at hp
  · simp only [h, if_neg, Bool.false_eq_true, if_false, Option.some.injEq] at hp
    subst hp
    exact stripWS_wsFree _

theorem mapped_phone_wsFree (data : List RemoteRecord) :
    ∀ i ∈ data.map mapRemote, ∀ p, i.phone = some p →
      ∀ c ∈ p.data, c.isWhitespace = false := by
  intro i hi p hp
  obtain ⟨u, -, hu⟩ := List.mem_map.mp hi
  exact mapRemote_phone_wsFree u p (hu ▸ hp)

/-! ## Claim C1 -/

/-- Claim C1: on the first `getDatabase()` call with an empty contacts table (the call
that runs `bootstrap`), the store is seeded with exactly the 3 fixed sample contacts,
and exactly one row ends up with `favorite = 1`, namely the row with the lowest id. -/
theorem bootstrap_seeds_three_one_favorite (now : Nat) :
    (bootstrapDB emptyDB now).rows.map (fun r => (r.id, r.name, r.phone, r.favorite))
      = [(1, "Alice Nguyen", some "0901234567", 1),
         (2, "Bao Tran", some "0987654321", 0),
         (3, "Cuong Le", some "0912345678", 0)] ∧
    ((bootstrapDB emptyDB now).rows.filter (fun r => r.favorite == 1)).map (fun r => r.id)
      = [1] ∧
    (bootstrapDB emptyDB now).rows.map (fun r => r.id) = [1, 2, 3] :=
  ⟨rfl, rfl, rfl⟩

/-! ## Claim C2 -/

/-- Claim C2 counterexample: after a first `getDatabase()` call whose bootstrap fails,
the next call does not retry: it returns the memoized failure even though a fresh
bootstrap attempt would now succeed. -/
theorem getDatabase_no_retry_cex :
    (getDatabaseStep (getDatabaseStep none (Except.error ("open failed"))).1
        (Except.ok (bootstrapDB emptyDB 0))).2 = Except.error ("open failed") ∧
    ¬ (getDatabaseStep (getDatabaseStep none (Except.error ("open failed"))).1
        (Except.ok (bootstrapDB emptyDB 0))).2 = Except.ok (bootstrapDB emptyDB 0) :=
  ⟨rfl, fun h => Except.noConfusion h⟩

/-- Claim C2 amended: a failed initialization is permanently memoized.  The first
failing call stores the failure in the module-level cache, and every subsequent call
returns that same failure without using any fresh bootstrap attempt. -/
theorem getDatabase_failure_permanent (e : String) (a1 a2 : Except String DBState) :
    (getDatabaseStep none (Except.error e)).1 = some (Except.error e) ∧
    (getDatabaseStep (getDatabaseStep (some (Except.error e)) a1).1 a2).2
      = Except.error e :=
  ⟨rfl, rfl⟩

/-! ## Claim C5 -/

/-- Claim C5 counterexample: toggling twice with the same stale `favorite = 0` copy
leaves the row at `favorite = 1`; the claim predicts the second call sets it back to
`favorite = 0`. -/
theorem toggleFavorite_stale_cex :
    ((toggleFavorite (toggleFavorite oneRowDB c0) c0).rows.map (fun r => r.favorite))
      = [1] ∧
    ¬ ((toggleFavorite (toggleFavorite oneRowDB c0) c0).rows.map (fun r => r.favorite))
      = [0] :=
  ⟨rfl, by decide⟩

/-- Claim C5 amended: `toggleFavorite` writes the opposite of the caller-supplied
favorite value to exactly the rows matching `contact.id` (leaving every other row and
every other field unchanged, and regardless of the row's true current state); hence a
second call with a stale `favorite = 0` copy writes `favorite = 1` again rather than
setting the row back to 0. -/
theorem toggleFavorite_writes_opposite (st : DBState) (c : Contact) :
    (toggleFavorite st c).nextId = st.nextId ∧
    (∀ k : Nat, (toggleFavorite st c).rows[k]? = (st.rows[k]?).map (fun r : Contact =>
        if r.id = c.id then { r with favorite := jsToggle c.favorite } else r)) ∧
    (c.favorite = 0 → ∀ r ∈ (toggleFavorite (toggleFavorite st c) c).rows,
      r.id = c.id → r.favorite = 1) := by
  refine ⟨rfl, fun k => ?_, fun hc r hr hid => ?_⟩
  · simp [toggleFavorite]
  · have hrows : (toggleFavorite (toggleFavorite st c) c).rows
        = (toggleFavorite st c).rows.map (fun r =>
            if r.id = c.id then { r with favorite := jsToggle c.favorite } else r) := rfl
    rw [hrows] at hr
    obtain ⟨r0, hr0, hfr⟩ := List.mem_map.mp hr
    by_cases h0 : r0.id = c.id
    · rw [if_pos h0] at hfr
      subst hfr
      simp [jsToggle, hc]
    · rw [if_neg h0] at hfr
      subst hfr
      exact absurd hid h0

/-- Witness for the amended C5 theorem at a concrete input: the one-row table, toggled
twice with the same stale `favorite = 0` contact, holds the row at `favorite = 1`. -/
theorem toggleFavorite_writes_opposite_witness :
    ({ c0 with favorite := 1 } : Contact).favorite = 1 :=
  (toggleFavorite_writes_opposite oneRowDB c0).2.2 rfl { c0 with favorite := 1 }
    (by decide) rfl

/-! ## Claim C6 -/

/-- Claim C6: `updateContact` rewrites only name, phone and email (with the same
trimming and empty-to-null rules as `addContact`, via `jsTrim`/`optTrimOrNull`) on every
row matching the id, leaves `favorite`, `created_at` and `id` of that row unchanged,
leaves all other rows unchanged, and is a silent no-op when no row matches. -/
theorem updateContact_frame (st : DBState) (i : Nat) (d : ContactInput) :
    (updateContact st i d).nextId = st.nextId ∧
    (updateContact st i d).rows.length = st.rows.length ∧
    (∀ (k : Nat) (r : Contact), st.rows[k]? = some r → r.id ≠ i →
      (updateContact st i d).rows[k]? = some r) ∧
    (∀ (k : Nat) (r : Contact), st.rows[k]? = some r → r.id = i →
      (updateContact st i d).rows[k]? = some
        { id := r.id, name := jsTrim d.name, phone := optTrimOrNull d.phone,
          email := optTrimOrNull d.email, favorite := r.favorite,
          created_at := r.created_at }) ∧
    ((∀ r ∈ st.rows, r.id ≠ i) → updateContact st i d = st) := by
  refine ⟨rfl, by simp [updateContact], fun k r hk hne => ?_, fun k r hk heq => ?_,
    fun h => ?_⟩
  · have hmap : (updateContact st i d).rows[k]? = (st.rows[k]?).map (fun r : Contact =>
        if r.id = i then
          { r with name := jsTrim d.name, phone := optTrimOrNull d.phone,
                   email := optTrimOrNull d.email }
        else r) := List.getElem?_map ..
    rw [hmap, hk, Option.map_some', if_neg hne]
  · have hmap : (updateContact st i d).rows[k]? = (st.rows[k]?).map (fun r : Contact =>
        if r.id = i then
          { r with name := jsTrim d.name, phone := optTrimOrNull d.phone,
                   email := optTrimOrNull d.email }
        else r) := List.getElem?_map ..
    rw [hmap, hk, Option.map_some', if_pos heq]
  · have hcg : st.rows.map (fun r : Contact =>
        if r.id = i then
          { r with name := jsTrim d.name, phone := optTrimOrNull d.phone,
                   email := optTrimOrNull d.email }
        else r) = st.rows.map (fun r : Contact => r) :=
      List.map_congr_left (fun a ha => if_neg (h a ha))
    unfold updateContact
    rw [hcg, List.map_id']

/-- Witness for C6 at concrete inputs: updating the matching row rewrites exactly the
three fields with trimming applied, and updating a missing id leaves the table as it
was. -/
theorem updateContact_frame_witness :
    (updateContact oneRowDB 1 { name := " B ", phone := some " ", email := some "b@x" }).rows[0]?
      = some { id := 1, name := "B", phone := none, email := some "b@x", favorite := 0,
               created_at := some 0 } ∧
    updateContact oneRowDB 2 { name := "C", phone := none, email := none } = oneRowDB := by
  constructor
  · have h := (updateContact_frame oneRowDB 1
      { name := " B ", phone := some " ", email := some "b@x" }).2.2.2.1 0 c0 rfl rfl
    rw [h]
    decide
  · exact (updateContact_frame oneRowDB 2
      { name := "C", phone := none, email := none }).2.2.2.2 (by decide)

/-! ## Claim C9 -/

/-- Claim C9: the filtered contact list is a sublist of the loaded snapshot: filtering
removes rows but never reorders, duplicates or modifies them, so the snapshot's order
is preserved in the visible list. -/
theorem filteredContacts_sublist (contacts : List Contact) (search : String)
    (favoritesOnly : Bool) :
    List.Sublist (filteredContacts contacts search favoritesOnly) contacts :=
  List.filter_sublist contacts

/-! ## Claim C10 -/

/-- Claim C10: `handleSubmit` rejects, before performing any write, every submission
whose trimmed name is empty or whose trimmed email is non-empty and contains no `@`:
the state is returned unchanged and no write is reported. -/
theorem handleSubmit_rejects (st : DBState) (editing : Option Contact) (form : FormState)
    (now : Nat)
    (h : jsTrim form.name = "" ∨
      (jsTrim form.email ≠ "" ∧ strIncludes (jsTrim form.email) ("@") = false)) :
    handleSubmit st editing form now = (st, false) := by
  unfold handleSubmit
  rw [if_pos h]

/-- Witness for C10 at concrete inputs: a whitespace-only name and an at-sign-free
email are both rejected without touching the table. -/
theorem handleSubmit_rejects_witness :
    handleSubmit oneRowDB none { name := " ", phone := "1", email := "ab" } 9
      = (oneRowDB, false) ∧
    handleSubmit oneRowDB none { name := "x", phone := "1", email := "ab" } 9
      = (oneRowDB, false) :=
  ⟨handleSubmit_rejects oneRowDB none { name := " ", phone := "1", email := "ab" } 9
      (Or.inl (by decide)),
   handleSubmit_rejects oneRowDB none { name := "x", phone := "1", email := "ab" } 9
      (Or.inr ⟨by decide, by decide⟩)⟩

/-! ## Claim C7 -/

theorem rowLe_trans : ∀ a b c : Contact, rowLe a b → rowLe b c → rowLe a c := by
  intro a b c hab hbc
  simp only [rowLe, Bool.or_eq_true, Bool.and_eq_true, decide_eq_true_eq,
    beq_iff_eq] at hab hbc ⊢
  rcases hab with h | ⟨h1, h2⟩ <;> rcases hbc with g | ⟨g1, g2⟩
  · exact Or.inl (by omega)
  · exact Or.inl (by omega)
  · exact Or.inl (by omega)
  · exact Or.inr ⟨by omega, le_trans h2 g2⟩

theorem rowLe_total : ∀ a b : Contact, rowLe a b || rowLe b a := by
  intro a b
  simp only [rowLe, Bool.or_eq_true, Bool.and_eq_true, decide_eq_true_eq, beq_iff_eq]
  rcases Nat.lt_trichotomy a.favorite b.favorite with h | h | h
  · exact Or.inr (Or.inl h)
  · rcases le_total a.name.toLower b.name.toLower with hn | hn
    · exact Or.inl (Or.inr ⟨h, hn⟩)
    · exact Or.inr (Or.inr ⟨h.symm, hn⟩)
  · exact Or.inl (Or.inl h)

/-- Claim C7: every `list()` result is sorted with all `favorite = 1` rows before all
`favorite = 0` rows (favorite descending) and, within equal favorites, names ascending
case-insensitively; moreover it is a permutation of the table rows. -/
theorem listContacts_sorted (st : DBState) :
    (listContacts st).Pairwise (fun a b =>
      b.favorite ≤ a.favorite ∧
        (a.favorite = b.favorite → a.name.toLower ≤ b.name.toLower)) ∧
    (listContacts st).Perm st.rows := by
  constructor
  · have h : (st.rows.mergeSort rowLe).Pairwise (fun a b => rowLe a b = true) :=
      List.sorted_mergeSort rowLe_trans rowLe_total st.rows
    refine List.Pairwise.imp ?_ h
    intro a b hab
    simp only [rowLe, Bool.or_eq_true, Bool.and_eq_true, decide_eq_true_eq,
      beq_iff_eq] at hab
    rcases hab with h1 | ⟨h1, h2⟩
    · exact ⟨Nat.le_of_lt h1, fun he => absurd h1 (by omega)⟩
    · exact ⟨Nat.le_of_eq h1.symm, fun _ => h2⟩
  · exact List.mergeSort_perm st.rows rowLe

/-! ## Claim C3 -/

/-- Claim C3: running the import against the same source twice inserts each unique
whitespace-stripped phone at most once across both runs combined: the second run is a
complete no-op (state unchanged, `importedCount = 0`), the returned count equals the
number of rows actually inserted, and the rows inserted by one run carry pairwise
distinct phones none of which was already in the table's working set. -/
theorem importFromApi_idempotent (data : List RemoteRecord) (st : DBState)
    (now now2 : Nat) :
    importFromApi data (importFromApi data st now).1 now2
      = ((importFromApi data st now).1, 0) ∧
    (importFromApi data st now).1.rows.length
      = st.rows.length + (importFromApi data st now).2 ∧
    ∃ new, (importFromApi data st now).1.rows = st.rows ++ new ∧
      (new.map (fun r => r.phone)).Nodup ∧
      (∀ r ∈ new, ∀ q, r.phone = some q → q ∉ existingPhonesOf st.rows) := by
  have hws := mapped_phone_wsFree data
  refine ⟨?_, ?_, ?_⟩
  · show importLoop now2 (data.map mapRemote)
        (existingPhonesOf (importFromApi data st now).1.rows)
        (importFromApi data st now).1 0
      = ((importFromApi data st now).1, 0)
    apply importLoop_skips
    intro i hi p hp
    by_cases hpe : p = ""
    · exact Or.inl hpe
    · refine Or.inr ?_
      have hwsp := hws i hi p hp
      rw [jsTrim_eq_self hwsp]
      exact importLoop_covers now (data.map mapRemote)
        (existingPhonesOf st.rows) st 0 hws (fun q hq => hq) i hi p hp hpe
  · obtain ⟨new, h1, h2, -, -⟩ :=
      importLoop_spec now (data.map mapRemote) (existingPhonesOf st.rows) st 0
    show (importLoop now (data.map mapRemote) (existingPhonesOf st.rows) st 0).1.rows.length
        = st.rows.length
          + (importLoop now (data.map mapRemote) (existingPhonesOf st.rows) st 0).2
    rw [h1, h2]
    simp
  · obtain ⟨new, h1, h2, h3, h4⟩ :=
      importLoop_spec now (data.map mapRemote) (existingPhonesOf st.rows) st 0
    refine ⟨new, h1, h3, fun r hr q hq => ?_⟩
    obtain ⟨i, hi, p, hp, hpne, -, hphone, -, hnotin⟩ := h4 r hr
    rw [hphone] at hq
    have hqe : jsTrim p = q := by simpa using hq
    exact hqe ▸ hnotin

/-- Witness for C3 on the spec scenario: the source with two records sharing phone
`"1 2 3"` inserts exactly one row (phone `"123"`), and re-importing it changes
nothing. -/
theorem importFromApi_idempotent_witness :
    importFromApi d0 (importFromApi d0 emptyDB 0).1 1
      = ((importFromApi d0 emptyDB 0).1, 0) ∧
    (importFromApi d0 emptyDB 0).2 = 1 ∧
    (importFromApi d0 emptyDB 0).1.rows.map (fun r => (r.name, r.phone))
      = [("A", some "123")] :=
  ⟨(importFromApi_idempotent d0 emptyDB 0 1).1, by decide, by decide⟩

/-! ## Claim C4 -/

/-- Claim C4 counterexample: importing a record whose remote name is whitespace-only
inserts a row whose stored name trims to the empty string. -/
theorem import_whitespace_name_cex :
    ((importFromApi [{ name := some " ", phone := some "123", email := none }]
        emptyDB 5).1.rows.map (fun r => jsTrim r.name)) = [""] := by
  decide

/-- Claim C4 amended: rows written by the form submit path or by the seed always have a
name that is non-empty after trimming; rows written by import always have a non-empty
stored name (falsy remote names fall back to `"(No name)"`), but import preserves a
whitespace-only remote name as-is, so for imported rows only the untrimmed name is
guaranteed non-empty. -/
theorem written_names_nonempty (st : DBState) (editing : Option Contact)
    (form : FormState) (now now2 now3 : Nat) (data : List RemoteRecord) :
    (∀ r ∈ (handleSubmit st editing form now).1.rows,
      r ∈ st.rows ∨ jsTrim r.name ≠ "") ∧
    (∀ r ∈ (importFromApi data st now2).1.rows, r ∈ st.rows ∨ r.name ≠ "") ∧
    (∀ r ∈ (bootstrapDB emptyDB now3).rows, jsTrim r.name ≠ "") := by
  refine ⟨?_, ?_, ?_⟩
  · intro r hr
    by_cases hcond : jsTrim form.name = "" ∨
        (jsTrim form.email ≠ "" ∧ strIncludes (jsTrim form.email) ("@") = false)
    · left
      have hsub : handleSubmit st editing form now = (st, false) := by
        unfold handleSubmit
        rw [if_pos hcond]
      rw [hsub] at hr
      exact hr
    · have hname : jsTrim form.name ≠ "" := fun he => hcond (Or.inl he)
      cases editing with
      | none =>
        have hsub : handleSubmit st none form now
            = (insertContact st (jsTrim form.name)
                (if jsTrim form.phone = "" then none else some (jsTrim form.phone))
                (if jsTrim form.email = "" then none else some (jsTrim form.email))
                0 now, true) := by
          unfold handleSubmit
          rw [if_neg hcond]
        rw [hsub] at hr
        rcases List.mem_append.mp hr with hl | hnew
        · exact Or.inl hl
        · right
          have hre : r
              = { id := st.nextId, name := jsTrim form.name,
                  phone := if jsTrim form.phone = "" then none
                           else some (jsTrim form.phone),
                  email := if jsTrim form.email = "" then none
                           else some (jsTrim form.email),
                  favorite := 0, created_at := some now } := by
            simpa using hnew
          rw [hre]
          show jsTrim (jsTrim form.name) ≠ ""
          rw [jsTrim_idem]
          exact hname
      | some c =>
        have hsub : handleSubmit st (some c) form now
            = ({ st with rows := st.rows.map (fun r0 : Contact =>
                  if r0.id = c.id then
                    { r0 with
                      name := jsTrim form.name,
                      phone := if jsTrim form.phone = "" then none
                               else some (jsTrim form.phone),
                      email := if jsTrim form.email = "" then none
                               else some (jsTrim form.email) }
                  else r0) }, true) := by
          unfold handleSubmit
          rw [if_neg hcond]
        rw [hsub] at hr
        obtain ⟨r0, hr0, hfr⟩ := List.mem_map.mp hr
        by_cases h0 : r0.id = c.id
        · rw [if_pos h0] at hfr
          right
          rw [← hfr]
          show jsTrim (jsTrim form.name) ≠ ""
          rw [jsTrim_idem]
          exact hname
        · rw [if_neg h0] at hfr
          exact Or.inl (hfr ▸ hr0)
  · intro r hr
    obtain ⟨new, h1, -, -, h4⟩ :=
      importLoop_spec now2 (data.map mapRemote) (existingPhonesOf st.rows) st 0
    have hr2 : r ∈ st.rows ++ new := by
      rw [← h1]
      exact hr
    rcases List.mem_append.mp hr2 with hl | hnew
    · exact Or.inl hl
    · right
      obtain ⟨i, hi, p, hp, hpne, hnm, -, -, -⟩ := h4 r hnew
      obtain ⟨u, -, hu⟩ := List.mem_map.mp hi
      rw [hnm, ← hu]
      exact mapRemote_name_ne u
  · intro r hr
    have hm : r.name ∈ (bootstrapDB emptyDB now3).rows.map (fun r0 => r0.name) :=
      List.mem_map_of_mem _ hr
    have hnames : (bootstrapDB emptyDB now3).rows.map (fun r0 => r0.name)
        = ["Alice Nguyen", "Bao Tran", "Cuong Le"] := rfl
    rw [hnames] at hm
    simp only [List.mem_cons, List.not_mem_nil, or_false] at hm
    rcases hm with h | h | h <;> rw [h] <;> decide

/-- Witness for the amended C4 theorem at concrete inputs: a valid form insert stores a
trimmed non-empty name, an import stores a non-empty name, and the seeded rows all have
non-empty trimmed names. -/
theorem written_names_nonempty_witness :
    ((1 : Nat) = 1 ∨ jsTrim ("Bob") ≠ "") ∧ jsTrim ("Alice Nguyen") ≠ "" := by
  constructor
  · have h := (written_names_nonempty oneRowDB none
      { name := " Bob ", phone := "", email := "" } 7 8 9 []).1
    have hmem : ({ id := 2, name := "Bob", phone := none, email := none,
                   favorite := 0, created_at := some 7 } : Contact)
        ∈ (handleSubmit oneRowDB none
            { name := " Bob ", phone := "", email := "" } 7).1.rows := by
      decide
    rcases h _ hmem with hl | hrn
    · exact Or.inl rfl
    · exact Or.inr hrn
  · have h := (written_names_nonempty oneRowDB none
      { name := " Bob ", phone := "", email := "" } 7 8 9 []).2.2
    have hmem : ({ id := 1, name := "Alice Nguyen", phone := some "0901234567",
                   email := none, favorite := 1, created_at := some 9 } : Contact)
        ∈ (bootstrapDB emptyDB 9).rows := by
      decide
    exact h _ hmem

/-! ## Claim C8 -/

/-- Claim C8: the import mapping sends an absent/falsy name to the literal
`"(No name)"` and keeps a truthy name, strips all whitespace from a truthy phone and
nulls a falsy one, and passes a truthy email through while nulling a falsy one; a
record whose phone is absent, empty, or whitespace-only is never inserted: a source
consisting of such records inserts nothing, and every row the import inserts carries a
non-empty, whitespace-free phone. -/
theorem import_mapping_rules (u : RemoteRecord) (data : List RemoteRecord) (st : DBState)
    (now : Nat) :
    (jsFalsy u.name = true → (mapRemote u).name = "(No name)") ∧
    (∀ s, u.name = some s → s ≠ "" → (mapRemote u).name = s) ∧
    (jsFalsy u.phone = true → (mapRemote u).phone = none) ∧
    (∀ s, u.phone = some s → s ≠ "" → (mapRemote u).phone = some (stripWS s)) ∧
    (jsFalsy u.email = true → (mapRemote u).email = none) ∧
    (∀ s, u.email = some s → s ≠ "" → (mapRemote u).email = some s) ∧
    ((∀ v ∈ data, ∀ p, v.phone = some p → stripWS p = "") →
      importFromApi data st now = (st, 0)) ∧
    (∀ r ∈ (importFromApi data st now).1.rows, r ∈ st.rows ∨
      ∃ q, r.phone = some q ∧ q ≠ "" ∧ ∀ c ∈ q.data, c.isWhitespace = false) := by
  refine ⟨?_, ?_, ?_, ?_, ?_, ?_, ?_, ?_⟩
  · intro h
    simp [mapRemote, h]
  · intro s hs hne
    have hf : jsFalsy (some s) = false := by
      simp [jsFalsy, hne]
    simp [mapRemote, hs, hf, orEmpty]
  · intro h
    simp [mapRemote, h]
  · intro s hs hne
    have hf : jsFalsy (some s) = false := by
      simp [jsFalsy, hne]
    simp [mapRemote, hs, hf, orEmpty]
  · intro h
    simp [mapRemote, h]
  · intro s hs hne
    have hf : jsFalsy (some s) = false := by
      simp [jsFalsy, hne]
    simp [mapRemote, hs, hf]
  · intro hall
    show importLoop now (data.map mapRemote) (existingPhonesOf st.rows) st 0 = (st, 0)
    apply importLoop_skips
    intro i hi p hp
    left
    obtain ⟨v, hv, hvu⟩ := List.mem_map.mp hi
    rw [← hvu] at hp
    unfold mapRemote at hp
    by_cases hf : jsFalsy v.phone = true
    · simp [hf] at hp
    · have hf' : jsFalsy v.phone = false := by
        simpa using hf
      simp only [hf', Bool.false_eq_true, if_false, Option.some.injEq] at hp
      cases hvp : v.phone with
      | none =>
        rw [hvp] at hf'
        simp [jsFalsy] at hf'
      | some s =>
        have hse : stripWS s = "" := hall v hv s hvp
        rw [hvp] at hp
        rw [← hp]
        simpa [orEmpty] using hse
  · intro r hr
    obtain ⟨new, h1, -, -, h4⟩ :=
      importLoop_spec now (data.map mapRemote) (existingPhonesOf st.rows) st 0
    have hr2 : r ∈ st.rows ++ new := by
      rw [← h1]
      exact hr
    rcases List.mem_append.mp hr2 with hl | hnew
    · exact Or.inl hl
    · right
      obtain ⟨i, hi, p, hp, hpne, -, hphone, -, -⟩ := h4 r hnew
      have hwsp : ∀ c ∈ p.data, c.isWhitespace = false :=
        mapped_phone_wsFree data i hi p hp
      refine ⟨jsTrim p, hphone, ?_, ?_⟩
      · rw [jsTrim_eq_self hwsp]
        exact hpne
      · rw [jsTrim_eq_self hwsp]
        exact hwsp

/-- Witness for C8 at concrete remote records: the fallback name, whitespace-stripped
phone, passed-through email, passthrough name, nulled phone and email, and the
no-insert behaviour on a whitespace-only phone. -/
theorem import_mapping_rules_witness :
    (mapRemote { name := none, phone := some " 1 2 3 ", email := some "a@b" }).name
      = "(No name)" ∧
    (mapRemote { name := none, phone := some " 1 2 3 ", email := some "a@b" }).phone
      = some (stripWS (" 1 2 3 ")) ∧
    stripWS (" 1 2 3 ") = "123" ∧
    (mapRemote { name := none, phone := some " 1 2 3 ", email := some "a@b" }).email
      = some "a@b" ∧
    (mapRemote { name := some "B", phone := none, email := none }).name = "B" ∧
    (mapRemote { name := some "B", phone := none, email := none }).phone = none ∧
    (mapRemote { name := some "B", phone := none, email := none }).email = none ∧
    importFromApi [{ name := some "W", phone := some "   ", email := none }] emptyDB 0
      = (emptyDB, 0) := by
  refine ⟨?_, ?_, by decide, ?_, ?_, ?_, ?_, ?_⟩
  · exact (import_mapping_rules
      { name := none, phone := some " 1 2 3 ", email := some "a@b" } [] emptyDB 0).1 rfl
  · exact (import_mapping_rules
      { name := none, phone := some " 1 2 3 ", email := some "a@b" } [] emptyDB 0).2.2.2.1
      (" 1 2 3 ") rfl (by decide)
  · exact (import_mapping_rules
      { name := none, phone := some " 1 2 3 ", email := some "a@b" } [] emptyDB 0).2.2.2.2.2.1
      ("a@b") rfl (by decide)
  · exact (import_mapping_rules
      { name := some "B", phone := none, email := none } [] emptyDB 0).2.1
      ("B") rfl (by decide)
  · exact (import_mapping_rules
      { name := some "B", phone := none, email := none } [] emptyDB 0).2.2.1 rfl
  · exact (import_mapping_rules
      { name := some "B", phone := none, email := none } [] emptyDB 0).2.2.2.2.1 rfl
  · refine (import_mapping_rules { name := none, phone := none, email := none }
      [{ name := some "W", phone := some "   ", email := none }] emptyDB 0).2.2.2.2.2.2.1 ?_
    intro v hv p hp
    simp only [List.mem_cons, List.not_mem_nil, or_false] at hv
    subst hv
    have hpe : ("   " : String) = p := by
      simpa using hp
    rw [← hpe]
    decide

end SimpleContacts
